import Mathlib

/-!
Verification of the PLA 7-day sortie forecasting core
(`pla_7day_predictor.py`, class `PLAPredictor`, v2.4.0).

The development shallowly embeds the parts of the predictor that the
verified properties talk about:

* the per-day feature engineering of `prepare_features` (lags, rolling
  statistics, EMA, percent changes, differences, derived ratios,
  zero-activity regime detection, spike detection, exogenous counts,
  holiday flag);
* the walk-forward cross-validation fold geometry of `train`
  (`EMBARGO_DAYS = 7`, `n_splits = 5`, `fold_size = n // 6`);
* the sentinel handling when no CV fold validates, and the regressor /
  quantile-regressor configuration that `train` always fits afterwards;
* the recursive 7-day forecasting loop of `predict_7_days`, including the
  weather adjustment, the uncertainty widening of the quantile band, the
  clamping of the band around the point estimate, and the risk
  classification thresholds;
* the single-day feature builder `_build_single_day_features` (for the
  comparison with the batch feature path);
* the prediction-ledger merge performed by `run`.

Machine floats are idealised as exact rationals (`ℚ`); the transcendental
functions `sin`, `cos`, `log1p`, `expm1` and `sqrt` that appear in feature
values are modelled over `ℝ` with Mathlib's exact counterparts.  The
CatBoost / RandomForest estimators themselves are opaque learned maps and
are abstracted as arbitrary functions of their inputs; everything proved
here is independent of what those functions compute.
-/

namespace PLA

/-! ### Configuration constants (module header of `pla_7day_predictor.py`) -/

/-- `HIGH_THRESHOLD = 60`. -/
def HIGH_THRESHOLD : ℚ := 60

/-- `PREDICTION_DAYS = 7`. -/
def PREDICTION_DAYS : ℕ := 7

/-! ### Walk-forward CV fold geometry (`PLAPredictor.train`, lines 583-598)

`train` sets `EMBARGO_DAYS = 7`, `n_splits = 5`, `horizon = 7`,
`fold_size = n // (n_splits + 1)` and, for `fold in range(n_splits)`:
`train_end = fold_size * (fold + 2)`, `test_start = train_end + EMBARGO_DAYS`,
`test_end = min(test_start + horizon, n)`.  A fold is skipped when
`test_end <= test_start or train_end < 60`, or when the test slice is
empty (`len(df_test) == 0`). -/

def EMBARGO_DAYS : ℕ := 7

def N_SPLITS : ℕ := 5

def CV_HORIZON : ℕ := 7

def foldSize (n : ℕ) : ℕ := n / (N_SPLITS + 1)

def trainEnd (n fold : ℕ) : ℕ := foldSize n * (fold + 2)

def testStart (n fold : ℕ) : ℕ := trainEnd n fold + EMBARGO_DAYS

def testEnd (n fold : ℕ) : ℕ := min (testStart n fold + CV_HORIZON) n

/-- The lags configured in `prepare_features`
(`for lag in [1, 2, 3, 5, 7, 14, 21, 30]`). -/
def lagList : List ℕ := [1, 2, 3, 5, 7, 14, 21, 30]

/-- The rolling windows configured in `prepare_features`
(`for window in [3, 7, 14, 30]`). -/
def rollWindows : List ℕ := [3, 7, 14, 30]

/-- The largest configured lag / rolling window of the feature set. -/
def maxConfiguredLag : ℕ := (lagList ++ rollWindows).foldr max 0

/-- Skip condition of the CV fold loop: the first `continue` fires when
`test_end <= test_start or train_end < 60`, the second when the test
slice `df.iloc[test_start:test_end]` is empty. -/
def foldSkipped (n fold : ℕ) : Prop :=
  testEnd n fold ≤ testStart n fold ∨ trainEnd n fold < 60 ∨
    testEnd n fold - testStart n fold = 0

instance (n fold : ℕ) : Decidable (foldSkipped n fold) := by
  unfold foldSkipped; infer_instance

/-- The folds that actually run (are not skipped). -/
def validFolds (n : ℕ) : List ℕ :=
  (List.range N_SPLITS).filter fun fold => decide (¬ foldSkipped n fold)

/-- `cv_mae_scores` after the fold loop, with the sentinel `[0]` recorded
when no fold validated (`self.cv_scores = [0]` in the `else` branch).
`foldScore fold` abstracts the mean absolute error `np.mean(fold_errors)`
the fold records; it is an opaque function of the learned fold model. -/
def cvScoresOf (n : ℕ) (foldScore : ℕ → ℚ) : List ℚ :=
  let scores := (validFolds n).map foldScore
  if scores = [] then [0] else scores

/-! ### Target transforms and the regressor ensemble (`train`, lines 667-692)

`train` fits the point regressor and both quantile regressors on
`np.log1p(y_reg_boosted)`; the lower/upper regressors are created with
`quantile=0.05` / `quantile=0.95`.  Inference inverts with
`max(0, np.expm1(...))` (`predict_7_days`, lines 773-777). -/

inductive TargetTransform
  | log1p
  | identity
deriving DecidableEq

/-- What `train` passes to one regressor's `fit`: the quantile the model
is created with (`None` for the point regressor) and the transform
applied to the target before fitting. -/
structure RegressorSpec where
  quantile : Option ℚ
  transform : TargetTransform
deriving DecidableEq

/-- Outcome of `train`: the recorded CV scores and the configuration of
the four estimators it unconditionally fits after the CV loop. -/
structure TrainOutcome where
  cvScores : List ℚ
  clfTrained : Bool
  pointSpec : RegressorSpec
  lowerSpec : RegressorSpec
  upperSpec : RegressorSpec

/-- `PLAPredictor.train`: run the walk-forward CV (recording the sentinel
`[0]` when no fold validates), then fit the classifier, the point
regressor (`log1p` target) and the two quantile regressors
(`quantile=0.05` / `0.95`, same `log1p` target space). -/
def trainRun (n : ℕ) (foldScore : ℕ → ℚ) : TrainOutcome where
  cvScores := cvScoresOf n foldScore
  clfTrained := true
  pointSpec := { quantile := none, transform := .log1p }
  lowerSpec := { quantile := some 0.05, transform := .log1p }
  upperSpec := { quantile := some 0.95, transform := .log1p }

/-- The target transform of `fit`, over `ℝ`: `np.log1p y = log (1 + y)`. -/
noncomputable def applyTransform : TargetTransform → ℝ → ℝ
  | .log1p, y => Real.log (1 + y)
  | .identity, y => y

/-- The inference-time inversion `max(0, np.expm1 z)` used for the point
prediction and for both quantile bounds in `predict_7_days`. -/
noncomputable def inferenceInvert (z : ℝ) : ℝ := max 0 (Real.exp z - 1)

/-! ### Risk classification (`predict_7_days`, lines 793-801) -/

inductive RiskLevel
  | high
  | mediumHigh
  | medium
  | low
deriving DecidableEq

/-- `if prob_high > 0.5: 'HIGH' elif prob_high > 0.3: 'MEDIUM-HIGH'
elif prob_high > 0.15: 'MEDIUM' else: 'LOW'`. -/
def riskLevelOf (p : ℚ) : RiskLevel :=
  if 0.5 < p then .high
  else if 0.3 < p then .mediumHigh
  else if 0.15 < p then .medium
  else .low

/-- The §4.6 threshold table exactly as the specification words it:
`p > 0.5 → HIGH`; `0.3 < p ≤ 0.5 → MEDIUM-HIGH`; `0.15 < p ≤ 0.3 →
MEDIUM`; else `LOW`. -/
def riskLevelSpec (p : ℚ) : RiskLevel :=
  if 0.5 < p then .high
  else if 0.3 < p ∧ p ≤ 0.5 then .mediumHigh
  else if 0.15 < p ∧ p ≤ 0.3 then .medium
  else .low

/-! ### Weather adjustment (`_get_weather_adjustment`, lines 697-717) -/

inductive WeatherRisk
  | high
  | medium
  | low
deriving DecidableEq

/-- The multiplicative factor `_get_weather_adjustment` returns: `0.75`
for HIGH weather risk, `0.9` for MEDIUM, `1.0` otherwise (including a
missing weather table). -/
def weatherAdjOf : WeatherRisk → ℚ
  | .high => 0.75
  | .medium => 0.9
  | .low => 1.0

/-! ### Band adjustment (`predict_7_days`, lines 779-791)

Inputs `zPoint`, `zLo`, `zHi` stand for the `np.expm1`-inverted raw model
outputs; the code wraps each in `max(0, ...)`, multiplies by the weather
factor, widens by `uncertainty_growth = 1 + i * 0.1`, and clamps the band
around the adjusted point estimate. -/

/-- The per-day band computation of the forecast loop.  Returns
`(pred_final, lower, upper)`. -/
def bandsOf (zPoint zLo zHi wadj : ℚ) (i : ℕ) : ℚ × ℚ × ℚ :=
  let pred := max 0 zPoint
  let lowerRaw := max 0 zLo
  let upperRaw := max 0 zHi
  let predFinal := pred * wadj
  let growth : ℚ := 1 + (i : ℚ) * 0.1
  let lower0 := max 0 (lowerRaw * wadj / growth)
  let upper0 := upperRaw * wadj * growth
  let lower1 := if predFinal < lower0 then max 0 (predFinal * 0.7) else lower0
  let upper1 := if upper0 < predFinal then predFinal * 1.3 else upper0
  (predFinal, lower1, upper1)

/-- The §4.3 adjustment rule exactly as the specification words it:
multiply both raw bounds by the exogenous factor, divide the lower bound
by `1 + i·0.1` and multiply the upper bound by `1 + i·0.1`, then clamp to
`point·0.7` (floored at 0) / `point·1.3` when the band misses the point
estimate. -/
def claimBandAdjust (point lowerRaw upperRaw wadj : ℚ) (i : ℕ) : ℚ × ℚ :=
  let lowerA := lowerRaw * wadj
  let upperA := upperRaw * wadj
  let growth : ℚ := 1 + (i : ℚ) * 0.1
  let lowerB := lowerA / growth
  let upperB := upperA * growth
  let lowerC := if point < lowerB then max 0 (point * 0.7) else lowerB
  let upperC := if upperB < point then point * 1.3 else upperB
  (lowerC, upperC)

/-! ### Batch feature engineering (`prepare_features`, lines 317-431)

The target series is `tgt : ℕ → ℚ`, indexed by row position in the
date-sorted sorties dataframe (`df['pla_aircraft_sorties']`); `d` is a row
index.  Every pandas construction of the form `df[target].shift(1)` /
`shift(k)` / `.rolling(w, min_periods=1)` is translated index-wise below.
Rows whose `lag_30` / `ma_30` / `ema_14` are `NaN` — exactly the rows with
`d < 30` — are dropped by `df.dropna(subset=['lag_30','ma_30','ema_14'])`,
so the training table consists of the rows with `30 ≤ d`; at the few
places where pandas would produce a `NaN` that only such a dropped row
could see, the model uses `0` as the junk value. -/

/-- `np.clip(x, -2, 2)` as applied to `pct_change_1d` / `pct_change_7d`. -/
def clip2 (x : ℚ) : ℚ := min 2 (max (-2) x)

/-- `.clip(0, 3)` as applied to `compression`. -/
def clip03 (x : ℚ) : ℚ := min 3 (max 0 x)

/-- `df[target].shift(lag)` at row `d`: `tgt (d - lag)`, `NaN` (junk `0`)
for `d < lag`. -/
def lagF (tgt : ℕ → ℚ) (d lag : ℕ) : ℚ :=
  if lag ≤ d then tgt (d - lag) else 0

/-- The window `df[target].shift(1).rolling(w, min_periods=1)` sees at row
`d`, in chronological order: the values at rows `d - w, …, d - 1`
(truncated at the start of the series; empty at `d = 0`). -/
def rollWin (tgt : ℕ → ℚ) (d w : ℕ) : List ℚ :=
  (List.range (min w d)).map fun j => tgt (d - min w d + j)

/-- Mean of a list (`.mean()`); `0` on the empty window (`NaN`, dropped). -/
def meanQ (l : List ℚ) : ℚ := l.sum / l.length

/-- Sample variance (`pandas .std()` uses `ddof=1`); the `.fillna(0)`
applied to `std_w` maps the single-observation `NaN` to `0`. -/
def sampleVarQ (l : List ℚ) : ℚ :=
  if l.length ≤ 1 then 0
  else (l.map fun x => (x - meanQ l) ^ 2).sum / ((l.length : ℚ) - 1)

/-- `pandas .std()` (sample standard deviation, `ddof=1`), `.fillna(0)`. -/
noncomputable def sampleStd (l : List ℚ) : ℝ :=
  Real.sqrt ((sampleVarQ l : ℚ) : ℝ)

/-- Population variance (`np.std` uses `ddof=0`). -/
def popVarQ (l : List ℚ) : ℚ :=
  if l.length = 0 then 0
  else (l.map fun x => (x - meanQ l) ^ 2).sum / (l.length : ℚ)

/-- `np.std` (population standard deviation, `ddof=0`). -/
noncomputable def popStd (l : List ℚ) : ℝ :=
  Real.sqrt ((popVarQ l : ℚ) : ℝ)

/-- `.rolling(...).min()` over a window already materialised as a list. -/
def listMin : List ℚ → ℚ
  | [] => 0
  | x :: xs => xs.foldl min x

/-- `.rolling(...).max()` over a window already materialised as a list. -/
def listMax : List ℚ → ℚ
  | [] => 0
  | x :: xs => xs.foldl max x

/-- `df[target].shift(1).ewm(span, adjust=False).mean()` at row `d`, with
`a = 2 / (span + 1)`: the leading `NaN` of the shifted series makes the
EMA start at `tgt 0` in row `1` (`NaN`, junk `0`, at row `0`). -/
def emaShift (a : ℚ) (tgt : ℕ → ℚ) : ℕ → ℚ
  | 0 => 0
  | 1 => tgt 0
  | d + 2 => a * tgt (d + 1) + (1 - a) * emaShift a tgt (d + 1)

/-- `pct_change_1d = ((shifted - shifted.shift(1)) / (shifted.shift(1)
+ 1)).fillna(0).clip(-2, 2)` where `shifted = df[target].shift(1)`. -/
def pctChange1 (tgt : ℕ → ℚ) (d : ℕ) : ℚ :=
  if 2 ≤ d then clip2 ((tgt (d - 1) - tgt (d - 2)) / (tgt (d - 2) + 1)) else 0

/-- `pct_change_7d`, analogous with `shifted.shift(7)`. -/
def pctChange7 (tgt : ℕ → ℚ) (d : ℕ) : ℚ :=
  if 8 ≤ d then clip2 ((tgt (d - 1) - tgt (d - 8)) / (tgt (d - 8) + 1)) else 0

/-- `diff_1 = (shifted - shifted.shift(1)).fillna(0)`. -/
def diff1 (tgt : ℕ → ℚ) (d : ℕ) : ℚ :=
  if 2 ≤ d then tgt (d - 1) - tgt (d - 2) else 0

/-- `diff_7 = (shifted - shifted.shift(7)).fillna(0)`. -/
def diff7 (tgt : ℕ → ℚ) (d : ℕ) : ℚ :=
  if 8 ≤ d then tgt (d - 1) - tgt (d - 8) else 0

/-- Number of zero values in a window (`lambda x: (x == 0).sum()`). -/
def zeroCount (l : List ℚ) : ℚ :=
  ((l.filter fun x => decide (x = 0)).length : ℚ)

/-- `PLAPredictor._max_consecutive_zero`: longest run of consecutive
zeros, scanning the window in order. -/
def maxConsecZero (l : List ℚ) : ℕ :=
  (l.foldl
    (fun s v => if v = 0 then (max s.1 (s.2 + 1), s.2 + 1) else (s.1, 0))
    (0, 0)).1

/-- One classified news item of `news_classified.json`. -/
structure NewsItem where
  date : ℤ
  isMilitaryExercise : Bool
  isUsTwInteraction : Bool
  isRelevant : Bool
  sentiment : ℚ
deriving DecidableEq

/-- `_extract_news_features`: the items with dates in
`[target_date - 7, target_date)`. -/
def newsWindow (news : List NewsItem) (targetDate : ℤ) : List NewsItem :=
  news.filter fun nw =>
    decide (targetDate - 7 ≤ nw.date) && decide (nw.date < targetDate)

def newsMilitaryCount (news : List NewsItem) (targetDate : ℤ) : ℚ :=
  (((newsWindow news targetDate).filter fun nw => nw.isMilitaryExercise).length : ℚ)

def newsUsTwCount (news : List NewsItem) (targetDate : ℤ) : ℚ :=
  (((newsWindow news targetDate).filter fun nw => nw.isUsTwInteraction).length : ℚ)

def newsRelevantCount (news : List NewsItem) (targetDate : ℤ) : ℚ :=
  (((newsWindow news targetDate).filter fun nw => nw.isRelevant).length : ℚ)

/-- `news_avg_sentiment`: mean sentiment over the window, `0` if empty. -/
def newsAvgSentiment (news : List NewsItem) (targetDate : ℤ) : ℚ :=
  meanQ ((newsWindow news targetDate).map NewsItem.sentiment)

/-- Count of event dates falling in `[targetDate - w, targetDate)` — the
shape of `_create_political_features` and of the `US_Taiwan_interaction` /
`Foreign_battleship` loops (each takes the dates of the qualifying
political-table rows as its event list). -/
def eventCount (events : List ℤ) (targetDate : ℤ) (w : ℕ) : ℚ :=
  ((events.filter fun e =>
    decide (targetDate - (w : ℤ) ≤ e) && decide (e < targetDate)).length : ℚ)

/-- All the non-target inputs of `prepare_features` for one run: calendar
data per row index, the binarised `航母活動` carrier column, the
political-event date lists, the news table and the holiday set. -/
structure ExoData where
  month : ℕ → ℕ
  dayofweek : ℕ → ℕ
  rowDate : ℕ → ℤ
  carrierBin : ℕ → ℚ
  polStmtDates : List ℤ
  usTwDates : List ℤ
  foreignBattleshipDates : List ℤ
  news : List NewsItem
  isHolidayOn : ℤ → Bool

/-- One row of the feature table `prepare_features` builds (all 32 + 8 + 4
+ 1 model-input columns; `time_weight`, `is_high` and the raw target are
not features). -/
structure FeatRow where
  month_sin : ℝ
  month_cos : ℝ
  dow_sin : ℝ
  dow_cos : ℝ
  lag_1 : ℚ
  lag_2 : ℚ
  lag_3 : ℚ
  lag_5 : ℚ
  lag_7 : ℚ
  lag_14 : ℚ
  lag_21 : ℚ
  lag_30 : ℚ
  ma_3 : ℚ
  ma_7 : ℚ
  ma_14 : ℚ
  ma_30 : ℚ
  ema_7 : ℚ
  ema_14 : ℚ
  min_7 : ℚ
  max_7 : ℚ
  std_3 : ℝ
  std_7 : ℝ
  std_14 : ℝ
  std_30 : ℝ
  pct_change_1d : ℚ
  pct_change_7d : ℚ
  diff_1 : ℚ
  diff_7 : ℚ
  compression : ℚ
  trend_3d : ℚ
  trend_7d : ℚ
  volatility_ratio : ℝ
  ema_trend : ℚ
  accel_1d : ℚ
  lag_ratio_1_7 : ℚ
  lag_diff_1_2 : ℚ
  lag_diff_2_3 : ℚ
  momentum_3d : ℚ
  zero_count_3d : ℚ
  zero_count_7d : ℚ
  consecutive_zero : ℕ
  spike_7d : ℚ
  spike_ratio : ℚ
  news_avg_sentiment : ℚ
  carrier : ℚ
  cn_stmt_7d : ℚ
  us_tw_interaction_7d : ℚ
  foreign_battleship_7d : ℚ
  news_military_count : ℚ
  news_us_tw_count : ℚ
  news_relevant_count : ℚ
  is_holiday : ℚ

/-- The feature vector `prepare_features` computes for row `d`, translated
column by column from lines 317-417 of the source. -/
noncomputable def prepareFeaturesRow (exo : ExoData) (tgt : ℕ → ℚ) (d : ℕ) :
    FeatRow :=
  let w3 := rollWin tgt d 3
  let w7 := rollWin tgt d 7
  let w14 := rollWin tgt d 14
  let w30 := rollWin tgt d 30
  let ma3 := meanQ w3
  let ma7 := meanQ w7
  let ma14 := meanQ w14
  let ema7 := emaShift (2 / 8) tgt d
  let ema14 := emaShift (2 / 15) tgt d
  let lag1 := lagF tgt d 1
  let lag2 := lagF tgt d 2
  let lag3 := lagF tgt d 3
  let spike7 := listMax w7
  { month_sin := Real.sin (2 * Real.pi * (exo.month d : ℝ) / 12)
    month_cos := Real.cos (2 * Real.pi * (exo.month d : ℝ) / 12)
    dow_sin := Real.sin (2 * Real.pi * (exo.dayofweek d : ℝ) / 7)
    dow_cos := Real.cos (2 * Real.pi * (exo.dayofweek d : ℝ) / 7)
    lag_1 := lag1
    lag_2 := lag2
    lag_3 := lag3
    lag_5 := lagF tgt d 5
    lag_7 := lagF tgt d 7
    lag_14 := lagF tgt d 14
    lag_21 := lagF tgt d 21
    lag_30 := lagF tgt d 30
    ma_3 := ma3
    ma_7 := ma7
    ma_14 := ma14
    ma_30 := meanQ w30
    ema_7 := ema7
    ema_14 := ema14
    min_7 := listMin w7
    max_7 := listMax w7
    std_3 := sampleStd w3
    std_7 := sampleStd w7
    std_14 := sampleStd w14
    std_30 := sampleStd w30
    pct_change_1d := pctChange1 tgt d
    pct_change_7d := pctChange7 tgt d
    diff_1 := diff1 tgt d
    diff_7 := diff7 tgt d
    compression := clip03 (ma3 / (ma14 + 1))
    trend_3d := ma3 - ma7
    trend_7d := ma7 - ma14
    volatility_ratio := sampleStd w7 / ((ma7 : ℝ) + 1)
    ema_trend := ema7 - ema14
    accel_1d := lag1 - 2 * lag2 + lag3
    lag_ratio_1_7 := lag1 / (lagF tgt d 7 + 1)
    lag_diff_1_2 := lag1 - lag2
    lag_diff_2_3 := lag2 - lag3
    momentum_3d := lag1 - lag3
    zero_count_3d := zeroCount w3
    zero_count_7d := zeroCount w7
    consecutive_zero := maxConsecZero w7
    spike_7d := spike7
    spike_ratio := lag1 / (spike7 + 1)
    news_avg_sentiment := newsAvgSentiment exo.news (exo.rowDate d)
    carrier := (rollWin exo.carrierBin d 7).sum
    cn_stmt_7d := eventCount exo.polStmtDates (exo.rowDate d) 7
    us_tw_interaction_7d := eventCount exo.usTwDates (exo.rowDate d) 7
    foreign_battleship_7d := eventCount exo.foreignBattleshipDates (exo.rowDate d) 7
    news_military_count := newsMilitaryCount exo.news (exo.rowDate d)
    news_us_tw_count := newsUsTwCount exo.news (exo.rowDate d)
    news_relevant_count := newsRelevantCount exo.news (exo.rowDate d)
    is_holiday := if exo.isHolidayOn (exo.rowDate d) then 1 else 0 }

/-! ### Single-day feature builder (`_build_single_day_features`, lines 472-549)

`window` is the rolling list of target values (observed history, extended
with predictions during the recursive forecast); `window[-k]` is
`window[len - k]`.  Only the features the comparison with the batch path
needs are translated here; the remaining fields of the returned dict
reuse the same combinators as the batch path above. -/

/-- Python negative indexing `window[-k]` (junk `0` out of range; the
source always calls this with `len(window) ≥ 30`). -/
def wget (w : List ℚ) (k : ℕ) : ℚ := w.getD (w.length - k) 0

/-- `window[-k:]` — the trailing `k` elements. -/
def lastN (w : List ℚ) (k : ℕ) : List ℚ := w.drop (w.length - k)

/-- `pct_change_1d = (window[-2] - window[-3]) / (window[-3] + 1) if
len(window) >= 3 else 0`, then `np.clip(..., -2, 2)`. -/
def sdPctChange1 (w : List ℚ) : ℚ :=
  clip2 (if 3 ≤ w.length then (wget w 2 - wget w 3) / (wget w 3 + 1) else 0)

/-- `pct_change_7d = (window[-2] - window[-9]) / (window[-9] + 1) if
len(window) >= 9 else 0`, then `np.clip(..., -2, 2)`. -/
def sdPctChange7 (w : List ℚ) : ℚ :=
  clip2 (if 9 ≤ w.length then (wget w 2 - wget w 9) / (wget w 9 + 1) else 0)

/-- `diff_1 = window[-2] - window[-3] if len(window) >= 3 else 0`. -/
def sdDiff1 (w : List ℚ) : ℚ :=
  if 3 ≤ w.length then wget w 2 - wget w 3 else 0

/-- `diff_7 = window[-2] - window[-9] if len(window) >= 9 else 0`. -/
def sdDiff7 (w : List ℚ) : ℚ :=
  if 9 ≤ w.length then wget w 2 - wget w 9 else 0

/-- `'std_3': np.std(recent_3)` with `recent_3 = window[-3:]` —
population standard deviation, unlike the batch path's pandas `.std()`. -/
noncomputable def sdStd3 (w : List ℚ) : ℝ := popStd (lastN w 3)

/-- The trailing `len` target values ending at row `d - 1`, in
chronological order: the window `df.tail(60)[target].tolist()` starts
from (`len = 60`, `d` = number of rows). -/
def trailWin (tgt : ℕ → ℚ) (d len : ℕ) : List ℚ :=
  (List.range len).map fun j => tgt (d - len + j)

/-! ### Recursive 7-day forecast (`predict_7_days`, lines 750-823)

The learned estimators are opaque: `Models.point window i` stands for
`np.expm1(reg_model.predict(X_full)[0])` where `X_full` is built by
`_build_single_day_features(window, latest_date, i)` and scaled — an
arbitrary function of the window and the day offset; likewise the two
quantile heads and the classifier probability. -/

structure Models where
  point : List ℚ → ℕ → ℚ
  lowerQ : List ℚ → ℕ → ℚ
  upperQ : List ℚ → ℕ → ℚ
  probHigh : List ℚ → ℕ → ℚ

/-- One row of the prediction table, holding what the loop appends to
`predictions` (the fields the verified invariants mention). -/
structure ForecastRow where
  dayOffset : ℕ
  predicted : ℚ
  lower : ℚ
  upper : ℚ
  probHigh : ℚ
  risk : RiskLevel
deriving DecidableEq

/-- The body of one iteration of the forecast loop at offset `i`:
invert the three regression heads with `max(0, expm1 ·)`, apply the
weather adjustment and the band logic (`bandsOf`), classify risk. -/
def buildForecastRow (M : Models) (wrisk : ℕ → WeatherRisk)
    (window : List ℚ) (i : ℕ) : ForecastRow :=
  let b := bandsOf (M.point window i) (M.lowerQ window i) (M.upperQ window i)
    (weatherAdjOf (wrisk i)) i
  let p := M.probHigh window i
  { dayOffset := i
    predicted := b.1
    lower := b.2.1
    upper := b.2.2
    probHigh := p
    risk := riskLevelOf p }

/-- The `for i in range(PREDICTION_DAYS)` loop: emit a row, then
`current_window.append(pred_final)`.  Returns the emitted rows and the
final window. -/
def predictLoop (M : Models) (wrisk : ℕ → WeatherRisk) :
    ℕ → List ℚ → ℕ → List ForecastRow × List ℚ
  | 0, window, _ => ([], window)
  | steps + 1, window, i =>
    let row := buildForecastRow M wrisk window i
    let rest := predictLoop M wrisk steps (window ++ [row.predicted]) (i + 1)
    (row :: rest.1, rest.2)

/-- `PLAPredictor.predict_7_days`, starting from the trailing window of
observed history. -/
def predict7Days (M : Models) (wrisk : ℕ → WeatherRisk) (window : List ℚ) :
    List ForecastRow × List ℚ :=
  predictLoop M wrisk PREDICTION_DAYS window 0

/-- The rolling window at the start of iteration `i`, anchored at window
`w` and day offset `i0` (the loop itself starts from `winFrom M wrisk w 0`). -/
def winFrom (M : Models) (wrisk : ℕ → WeatherRisk) (w : List ℚ) (i0 : ℕ) :
    ℕ → List ℚ
  | 0 => w
  | j + 1 =>
    let wj := winFrom M wrisk w i0 j
    wj ++ [(buildForecastRow M wrisk wj (i0 + j)).predicted]

/-! ### Prediction-ledger merge (`run`, lines 843-884)

A ledger row carries the forecast fields plus the back-fillable
`actual_sorties` / `prediction_error` columns; `date` is encoded as an
integer (the ISO strings sort identically).  `actualOf` is `actual_dict`.
`pandas.sort_values('date')` is modelled as a stable insertion sort on
the date key. -/

structure LedgerRow where
  date : ℤ
  predicted : Option ℚ
  lower : ℚ
  upper : ℚ
  risk : RiskLevel
  actual : Option ℚ
  error : Option ℚ
deriving DecidableEq

/-- The back-fill step applied to a row (`run`, lines 858-862 and
872-876): when the realized observation for the row's date is available,
set `actual_sorties`, and set `prediction_error = actual - predicted`
when `predicted_sorties` is not `NaN`. -/
def backfillRow (actualOf : ℤ → Option ℚ) (r : LedgerRow) : LedgerRow :=
  match actualOf r.date with
  | some a =>
    { r with
      actual := some a
      error :=
        match r.predicted with
        | some p => some (a - p)
        | none => r.error }
  | none => r

/-- Stable insertion of a row into a date-sorted list: a new row goes
before the first strictly later date and after rows with equal dates. -/
def insertRow (x : LedgerRow) : List LedgerRow → List LedgerRow
  | [] => [x]
  | y :: s => if x.date ≤ y.date then x :: y :: s else y :: insertRow x s

/-- `combined.sort_values('date')` as a stable sort by date. -/
def sortRows (l : List LedgerRow) : List LedgerRow := l.foldr insertRow []

/-- The drop condition `~existing['date'].isin(overlap)`: for a row of
`existing`, membership in `overlap = set(existing['date']) &
set(predictions['date'])` is membership of its date in the batch dates. -/
def notInBatch (batch : List LedgerRow) (r : LedgerRow) : Bool :=
  !(decide (r.date ∈ batch.map LedgerRow.date))

/-- The ledger merge of `run`: back-fill the existing rows, drop existing
rows whose date overlaps the new forecast batch, append the batch,
back-fill the combined table, sort by date. -/
def mergeLedger (existing batch : List LedgerRow) (actualOf : ℤ → Option ℚ) :
    List LedgerRow :=
  let combined :=
    if existing.isEmpty then batch
    else
      ((existing.map (backfillRow actualOf)).filter (notInBatch batch)) ++ batch
  sortRows (combined.map (backfillRow actualOf))

/-! ### Concrete inputs used by the closed witness instances below -/

/-- A concrete target series. -/
def tgtA : ℕ → ℚ := fun e => (e : ℚ)

/-- `tgtA` with every value from row 35 on perturbed by `+100`. -/
def tgtB : ℕ → ℚ := fun e => if e < 35 then (e : ℚ) else (e : ℚ) + 100

/-- A quadratic target series (consecutive differences all distinct). -/
def sqSeries : ℕ → ℚ := fun e => (e : ℚ) * (e : ℚ)

/-- Trivial exogenous data: empty event tables, no holidays. -/
def exoTriv : ExoData where
  month := fun _ => 1
  dayofweek := fun _ => 0
  rowDate := fun d => (d : ℤ)
  carrierBin := fun _ => 0
  polStmtDates := []
  usTwDates := []
  foreignBattleshipDates := []
  news := []
  isHolidayOn := fun _ => false

/-- A concrete model set for exercising the forecast loop. -/
def wModels : Models where
  point := fun w i => w.sum + (i : ℚ)
  lowerQ := fun _ _ => -1
  upperQ := fun w _ => w.sum
  probHigh := fun _ _ => 0.4

/-- A concrete weather-risk sequence. -/
def wRiskSeq : ℕ → WeatherRisk := fun i => if i = 0 then .high else .low

/-- A concrete starting window for the band-ordering witness. -/
def wWindow : List ℚ := [1, 2, 3]

/-- The first row the forecast loop emits on the concrete inputs. -/
def wRow : ForecastRow := buildForecastRow wModels wRiskSeq wWindow 0

/-- A concrete model set for the recursive-consistency witness. -/
def cModels : Models where
  point := fun w _ => w.sum
  lowerQ := fun _ _ => 0
  upperQ := fun w _ => w.sum + 10
  probHigh := fun _ _ => 0.2

/-- A trailing window of 60 observed values. -/
def cWindow : List ℚ := List.replicate 60 1

/-! ## Theorems -/

/-! ### Risk classification (claim C7) -/

/-- Claim C7: risk classification is the pure threshold function of the
high-activity probability `p` given in §4.6: `p > 0.5 → HIGH`,
`0.3 < p ≤ 0.5 → MEDIUM-HIGH`, `0.15 < p ≤ 0.3 → MEDIUM`, else `LOW`;
in particular the boundary points `0.5`, `0.3`, `0.15` fall in the lower
class. -/
theorem risk_classification_thresholds :
    (∀ p : ℚ, riskLevelOf p = riskLevelSpec p) ∧
    riskLevelOf 0.5 = RiskLevel.mediumHigh ∧
    riskLevelOf 0.3 = RiskLevel.medium ∧
    riskLevelOf 0.15 = RiskLevel.low := by
  refine ⟨fun p => ?_, by norm_num [riskLevelOf], by norm_num [riskLevelOf],
    by norm_num [riskLevelOf]⟩
  rcases lt_or_le (0.5 : ℚ) p with h1 | h1
  · simp [riskLevelOf, riskLevelSpec, h1]
  · rcases lt_or_le (0.3 : ℚ) p with h2 | h2
    · simp [riskLevelOf, riskLevelSpec, not_lt.mpr h1, h2, h1]
    · rcases lt_or_le (0.15 : ℚ) p with h3 | h3
      · simp [riskLevelOf, riskLevelSpec, not_lt.mpr h1, not_lt.mpr h2, h3, h2]
      · simp [riskLevelOf, riskLevelSpec, not_lt.mpr h1, not_lt.mpr h2,
          not_lt.mpr h3]

/-! ### Embargo geometry (claim C2) -/

/-- Claim C2 as frozen is false on the code: at `n = 300`, `fold = 0` the
gap `test_start - train_end` equals `EMBARGO_DAYS = 7`, but
`EMBARGO_DAYS ≥ max_configured_lag` fails since the largest configured
lag/rolling window is 30 (`lag_30` / `ma_30` / `std_30`). -/
theorem embargo_invariant_counterexample :
    ¬ (EMBARGO_DAYS ≤ testStart 300 0 - trainEnd 300 0 ∧
       maxConfiguredLag ≤ EMBARGO_DAYS) := by decide

/-- Claim C2 amended: for every fold of the walk-forward validator,
`test_start - train_end = EMBARGO_DAYS = 7`, but the embargo is smaller
than the maximum configured lag/rolling window, which is 30. -/
theorem embargo_gap_amended (n fold : ℕ) :
    testStart n fold - trainEnd n fold = EMBARGO_DAYS ∧
    EMBARGO_DAYS = 7 ∧ maxConfiguredLag = 30 ∧
    EMBARGO_DAYS < maxConfiguredLag := by
  refine ⟨?_, rfl, by decide, by decide⟩
  unfold testStart
  omega

/-! ### Band adjustment (claims C3, C4) -/

/-- The band triple of one forecast day is ordered whenever the weather
factor is positive (helper for claim C3). -/
theorem bandsOf_ordered (zP zLo zHi wadj : ℚ) (hw : 0 < wadj) (i : ℕ) :
    0 ≤ (bandsOf zP zLo zHi wadj i).2.1 ∧
    (bandsOf zP zLo zHi wadj i).2.1 ≤ (bandsOf zP zLo zHi wadj i).1 ∧
    (bandsOf zP zLo zHi wadj i).1 ≤ (bandsOf zP zLo zHi wadj i).2.2 ∧
    0 ≤ (bandsOf zP zLo zHi wadj i).1 := by
  simp only [bandsOf]
  have hpf : (0 : ℚ) ≤ max 0 zP * wadj := mul_nonneg (le_max_left _ _) hw.le
  constructor
  · split_ifs <;> exact le_max_left _ _
  constructor
  · split_ifs with h
    · exact max_le hpf (by linarith)
    · exact le_of_not_lt h
  constructor
  · split_ifs with h
    · linarith
    · exact le_of_not_lt h
  · exact hpf

/-- Every row the forecast loop emits is built by `buildForecastRow` from
some window and offset (helper). -/
theorem mem_predictLoop_build (M : Models) (wrisk : ℕ → WeatherRisk) :
    ∀ steps w i row, row ∈ (predictLoop M wrisk steps w i).1 →
      ∃ wj j, row = buildForecastRow M wrisk wj j := by
  intro steps
  induction steps with
  | zero => intro w i row h; simp [predictLoop] at h
  | succ k ih =>
    intro w i row h
    simp only [predictLoop, List.mem_cons] at h
    rcases h with h | h
    · exact ⟨w, i, h⟩
    · exact ih _ _ _ h

/-- Claim C3: every `ForecastRow` emitted by `predict_7_days` satisfies
`0 ≤ lower_bound ≤ predicted_value ≤ upper_bound` after the weather
adjustment, uncertainty widening and clamping, and `predicted_value ≥ 0`. -/
theorem forecast_band_ordering (M : Models) (wrisk : ℕ → WeatherRisk)
    (w0 : List ℚ) (row : ForecastRow)
    (h : row ∈ (predict7Days M wrisk w0).1) :
    0 ≤ row.lower ∧ row.lower ≤ row.predicted ∧
    row.predicted ≤ row.upper ∧ 0 ≤ row.predicted := by
  obtain ⟨wj, j, rfl⟩ := mem_predictLoop_build M wrisk _ _ _ _ h
  have hw : 0 < weatherAdjOf (wrisk j) := by
    cases wrisk j <;> norm_num [weatherAdjOf]
  have := bandsOf_ordered (M.point wj j) (M.lowerQ wj j) (M.upperQ wj j)
    (weatherAdjOf (wrisk j)) hw j
  simpa [buildForecastRow] using this

/-- Witness for claim C3 at a concrete model set, weather table and
window. -/
theorem forecast_band_ordering_witness :
    0 ≤ wRow.lower ∧ wRow.lower ≤ wRow.predicted ∧
    wRow.predicted ≤ wRow.upper ∧ 0 ≤ wRow.predicted :=
  forecast_band_ordering wModels wRiskSeq wWindow wRow
    (List.mem_cons_self wRow
      (predictLoop wModels wRiskSeq 6 (wWindow ++ [wRow.predicted]) 1).1)

/-- Claim C4: the code's band computation at day offset `i` is exactly
the claimed rule — multiply both raw (floored) bounds by the weather
factor, divide the lower bound by `1 + i·0.1`, multiply the upper bound
by `1 + i·0.1`, then clamp to `point·0.7` (floored at 0) / `point·1.3`
around the adjusted point estimate. -/
theorem band_adjustment_rule (zP zLo zHi : ℚ) (r : WeatherRisk) (i : ℕ) :
    (bandsOf zP zLo zHi (weatherAdjOf r) i).2 =
      claimBandAdjust (max 0 zP * weatherAdjOf r) (max 0 zLo) (max 0 zHi)
        (weatherAdjOf r) i := by
  have hw : 0 < weatherAdjOf r := by cases r <;> norm_num [weatherAdjOf]
  have hg : (0 : ℚ) < 1 + (i : ℚ) * 0.1 := by positivity
  have hlo : (0 : ℚ) ≤ max 0 zLo * weatherAdjOf r / (1 + (i : ℚ) * 0.1) :=
    div_nonneg (mul_nonneg (le_max_left _ _) hw.le) hg.le
  simp only [bandsOf, claimBandAdjust]
  rw [max_eq_right hlo]

/-! ### CV degenerate case and production training (claim C8) -/

/-- Claim C8: folds with an empty test window or a training prefix below
the 60-row minimum are skipped (they are exactly the folds missing from
`validFolds`), and when no fold validates the validator records the
sentinel score `[0]` while the run still trains the classifier, the
point regressor and both quantile regressors. -/
theorem cv_no_valid_folds_sentinel (n : ℕ) (fs : ℕ → ℚ)
    (h : ∀ fold < N_SPLITS, foldSkipped n fold) :
    (trainRun n fs).cvScores = [0] ∧
    (trainRun n fs).clfTrained = true ∧
    (trainRun n fs).pointSpec =
      { quantile := none, transform := .log1p } ∧
    (trainRun n fs).lowerSpec =
      { quantile := some 0.05, transform := .log1p } ∧
    (trainRun n fs).upperSpec =
      { quantile := some 0.95, transform := .log1p } ∧
    ∀ fold < N_SPLITS, fold ∉ validFolds n ∧
      (foldSkipped n fold ↔
        (testEnd n fold - testStart n fold = 0 ∨ trainEnd n fold < 60)) := by
  have hempty : validFolds n = [] := by
    apply List.filter_eq_nil_iff.mpr
    intro fold hfold
    simp only [List.mem_range] at hfold
    simpa using h fold hfold
  refine ⟨?_, rfl, rfl, rfl, rfl, ?_⟩
  · simp [trainRun, cvScoresOf, hempty]
  · intro fold hfold
    refine ⟨by simp [hempty], ?_⟩
    unfold foldSkipped
    omega

/-- Witness for claim C8: with only 60 rows every fold is skipped (the
minimum accepted input size produces no valid fold). -/
theorem cv_no_valid_folds_sentinel_witness :
    (trainRun 60 (fun _ => 0)).cvScores = [0] ∧
    (trainRun 60 (fun _ => 0)).clfTrained = true ∧
    (trainRun 60 (fun _ => 0)).pointSpec =
      { quantile := none, transform := .log1p } ∧
    (trainRun 60 (fun _ => 0)).lowerSpec =
      { quantile := some 0.05, transform := .log1p } ∧
    (trainRun 60 (fun _ => 0)).upperSpec =
      { quantile := some 0.95, transform := .log1p } ∧
    ∀ fold < N_SPLITS, fold ∉ validFolds 60 ∧
      (foldSkipped 60 fold ↔
        (testEnd 60 fold - testStart 60 fold = 0 ∨ trainEnd 60 fold < 60)) :=
  cv_no_valid_folds_sentinel 60 (fun _ => 0) (by decide)

/-! ### Quantile regressor target space (claim C5) -/

/-- Claim C5: the lower and upper quantile regressors are created at the
fixed quantiles `0.05` and `0.95` and fit on the same `log1p` target as
the point regressor, and the inference-time inversion
`max(0, expm1 ·)` is exact on that transform for every nonnegative
target value. -/
theorem quantile_space_consistency (n : ℕ) (fs : ℕ → ℚ) (y : ℝ)
    (hy : 0 ≤ y) :
    (trainRun n fs).lowerSpec.quantile = some 0.05 ∧
    (trainRun n fs).upperSpec.quantile = some 0.95 ∧
    (trainRun n fs).lowerSpec.transform = (trainRun n fs).pointSpec.transform ∧
    (trainRun n fs).upperSpec.transform = (trainRun n fs).pointSpec.transform ∧
    inferenceInvert (applyTransform (trainRun n fs).pointSpec.transform y) = y := by
  refine ⟨rfl, rfl, rfl, rfl, ?_⟩
  show max 0 (Real.exp (Real.log (1 + y)) - 1) = y
  rw [Real.exp_log (by linarith)]
  rw [add_sub_cancel_left]
  exact max_eq_right hy

/-- Witness for claim C5 at `y = 3`. -/
theorem quantile_space_consistency_witness :
    (trainRun 100 (fun _ => 0)).lowerSpec.quantile = some 0.05 ∧
    (trainRun 100 (fun _ => 0)).upperSpec.quantile = some 0.95 ∧
    (trainRun 100 (fun _ => 0)).lowerSpec.transform =
      (trainRun 100 (fun _ => 0)).pointSpec.transform ∧
    (trainRun 100 (fun _ => 0)).upperSpec.transform =
      (trainRun 100 (fun _ => 0)).pointSpec.transform ∧
    inferenceInvert
      (applyTransform (trainRun 100 (fun _ => 0)).pointSpec.transform 3) = 3 :=
  quantile_space_consistency 100 (fun _ => 0) 3 (by norm_num)

/-! ### No-leakage of the batch feature engineering (claim C1) -/

/-- `lag_k` at row `d` only reads the target strictly before `d`. -/
theorem lagF_congr {f g : ℕ → ℚ} {d : ℕ} (h : ∀ e, e < d → f e = g e)
    (k : ℕ) (hk : 1 ≤ k) : lagF f d k = lagF g d k := by
  unfold lagF
  split_ifs with hle
  · exact h _ (by omega)
  · rfl

/-- The shifted rolling window at row `d` only reads the target strictly
before `d`. -/
theorem rollWin_congr {f g : ℕ → ℚ} {d : ℕ} (h : ∀ e, e < d → f e = g e)
    (w : ℕ) : rollWin f d w = rollWin g d w := by
  unfold rollWin
  apply List.map_congr_left
  intro j hj
  simp only [List.mem_range] at hj
  have hmd : min w d ≤ d := min_le_right w d
  exact h _ (by omega)

/-- The shifted EMA at row `d` only reads the target strictly before
`d`. -/
theorem emaShift_congr (a : ℚ) {f g : ℕ → ℚ} :
    ∀ d, (∀ e, e < d → f e = g e) → emaShift a f d = emaShift a g d
  | 0, _ => rfl
  | 1, h => by simp [emaShift, h 0 (by omega)]
  | d + 2, h => by
    have ih := emaShift_congr a (d + 1) fun e he => h e (by omega)
    simp only [emaShift, h (d + 1) (by omega), ih]

/-- `pct_change_1d` at row `d` only reads the target strictly before
`d`. -/
theorem pctChange1_congr {f g : ℕ → ℚ} {d : ℕ}
    (h : ∀ e, e < d → f e = g e) : pctChange1 f d = pctChange1 g d := by
  unfold pctChange1
  split_ifs with h2
  · rw [h (d - 1) (by omega), h (d - 2) (by omega)]
  · rfl

/-- `pct_change_7d` at row `d` only reads the target strictly before
`d`. -/
theorem pctChange7_congr {f g : ℕ → ℚ} {d : ℕ}
    (h : ∀ e, e < d → f e = g e) : pctChange7 f d = pctChange7 g d := by
  unfold pctChange7
  split_ifs with h2
  · rw [h (d - 1) (by omega), h (d - 8) (by omega)]
  · rfl

/-- `diff_1` at row `d` only reads the target strictly before `d`. -/
theorem diff1_congr {f g : ℕ → ℚ} {d : ℕ}
    (h : ∀ e, e < d → f e = g e) : diff1 f d = diff1 g d := by
  unfold diff1
  split_ifs with h2
  · rw [h (d - 1) (by omega), h (d - 2) (by omega)]
  · rfl

/-- `diff_7` at row `d` only reads the target strictly before `d`. -/
theorem diff7_congr {f g : ℕ → ℚ} {d : ℕ}
    (h : ∀ e, e < d → f e = g e) : diff7 f d = diff7 g d := by
  unfold diff7
  split_ifs with h2
  · rw [h (d - 1) (by omega), h (d - 8) (by omega)]
  · rfl

/-- Claim C1: for every day `d` of the training feature table (the rows
surviving the `dropna`, i.e. `30 ≤ d`), the entire feature vector of
`prepare_features` is unchanged when the target series is perturbed at
`d` or any later date — every feature is a function of `target_count`
strictly before `d`, the calendar date, and the exogenous tables. -/
theorem prepare_features_no_leakage (exo : ExoData) (tgt₁ tgt₂ : ℕ → ℚ)
    (d : ℕ) (_hd : 30 ≤ d) (h : ∀ e, e < d → tgt₁ e = tgt₂ e) :
    prepareFeaturesRow exo tgt₁ d = prepareFeaturesRow exo tgt₂ d := by
  have hw3 := rollWin_congr h 3
  have hw7 := rollWin_congr h 7
  have hw14 := rollWin_congr h 14
  have hw30 := rollWin_congr h 30
  have hl1 := lagF_congr h 1 (by omega)
  have hl2 := lagF_congr h 2 (by omega)
  have hl3 := lagF_congr h 3 (by omega)
  have hl5 := lagF_congr h 5 (by omega)
  have hl7 := lagF_congr h 7 (by omega)
  have hl14 := lagF_congr h 14 (by omega)
  have hl21 := lagF_congr h 21 (by omega)
  have hl30 := lagF_congr h 30 (by omega)
  have he7 := emaShift_congr (2 / 8) d h
  have he14 := emaShift_congr (2 / 15) d h
  have hp1 := pctChange1_congr h
  have hp7 := pctChange7_congr h
  have hd1 := diff1_congr h
  have hd7 := diff7_congr h
  simp only [prepareFeaturesRow, hw3, hw7, hw14, hw30, hl1, hl2, hl3, hl5,
    hl7, hl14, hl21, hl30, he7, he14, hp1, hp7, hd1, hd7]

/-- Witness for claim C1: perturbing the series by `+100` from row 35 on
leaves the feature vector of row 35 unchanged. -/
theorem prepare_features_no_leakage_witness :
    prepareFeaturesRow exoTriv tgtA 35 = prepareFeaturesRow exoTriv tgtB 35 :=
  prepare_features_no_leakage exoTriv tgtA tgtB 35 (by norm_num)
    (fun e he => by simp [tgtA, tgtB, he])

/-! ### Recursive consistency of the forecast loop (claim C6) -/

/-- Shifting the anchor of `winFrom` by one appended prediction. -/
theorem winFrom_shift (M : Models) (wrisk : ℕ → WeatherRisk) (w : List ℚ)
    (i : ℕ) :
    ∀ j, winFrom M wrisk
        (w ++ [(buildForecastRow M wrisk w i).predicted]) (i + 1) j =
      winFrom M wrisk w i (j + 1)
  | 0 => by simp [winFrom]
  | j + 1 => by
    have harith : i + 1 + j = i + (j + 1) := by omega
    simp only [winFrom, winFrom_shift M wrisk w i j, harith]

/-- The rows the loop emits are exactly the `buildForecastRow` values on
the successive windows. -/
theorem predictLoop_eq (M : Models) (wrisk : ℕ → WeatherRisk) :
    ∀ steps w i, (predictLoop M wrisk steps w i).1 =
      (List.range steps).map fun j =>
        buildForecastRow M wrisk (winFrom M wrisk w i j) (i + j)
  | 0, w, i => by simp [predictLoop]
  | steps + 1, w, i => by
    simp only [predictLoop]
    rw [predictLoop_eq M wrisk steps
      (w ++ [(buildForecastRow M wrisk w i).predicted]) (i + 1),
      List.range_succ_eq_map]
    simp only [List.map_cons, List.map_map, Function.comp]
    refine List.cons_eq_cons.mpr ⟨by simp [winFrom], ?_⟩
    apply List.map_congr_left
    intro a ha
    rw [winFrom_shift M wrisk w i a]
    have harith : i + 1 + a = i + (a + 1) := by omega
    rw [harith]
    rfl

/-- Length of the rolling window after `j` appended predictions. -/
theorem winFrom_length (M : Models) (wrisk : ℕ → WeatherRisk) (w : List ℚ)
    (i : ℕ) : ∀ j, (winFrom M wrisk w i j).length = w.length + j
  | 0 => rfl
  | j + 1 => by
    simp only [winFrom, List.length_append, List.length_singleton,
      winFrom_length M wrisk w i j]
    omega

/-- The window after `i` iterations is the initial window extended with
the `i` emitted predictions. -/
theorem winFrom_eq_append (M : Models) (wrisk : ℕ → WeatherRisk)
    (w : List ℚ) :
    ∀ i, winFrom M wrisk w 0 i =
      w ++ (List.range i).map fun j =>
        (buildForecastRow M wrisk (winFrom M wrisk w 0 j) j).predicted
  | 0 => by simp [winFrom]
  | i + 1 => by
    rw [winFrom, List.range_succ, List.map_append, ← List.append_assoc,
      ← winFrom_eq_append M wrisk w i]
    simp

/-- The first `i ≤ 7` emitted predictions, as a prefix of the rows. -/
theorem rows_take (M : Models) (wrisk : ℕ → WeatherRisk) (w : List ℚ)
    (i : ℕ) (hi : i ≤ 7) :
    ((predict7Days M wrisk w).1.map ForecastRow.predicted).take i =
      (List.range i).map fun j =>
        (buildForecastRow M wrisk (winFrom M wrisk w 0 j) j).predicted := by
  rw [predict7Days, predictLoop_eq, List.map_map, ← List.map_take,
    List.take_range]
  have hmin : min i PREDICTION_DAYS = i := by
    simp [PREDICTION_DAYS]; omega
  rw [hmin]
  simp [Function.comp]

/-- Claim C6: the forecast loop runs exactly 7 iterations; the window
used at iteration `i` is the original trailing 60 observed values plus
exactly the first `i` emitted predictions (so it has length `60 + i`),
and row `i` is built from that window — in particular each appended
value is the post-adjustment point estimate emitted as
`predicted_sorties`, not the raw model output. -/
theorem recursive_consistency (M : Models) (wrisk : ℕ → WeatherRisk)
    (w0 : List ℚ) (h60 : w0.length = 60) :
    (predict7Days M wrisk w0).1.length = 7 ∧
    (∀ i, i ≤ 7 →
      winFrom M wrisk w0 0 i =
        w0 ++ ((predict7Days M wrisk w0).1.map ForecastRow.predicted).take i ∧
      (winFrom M wrisk w0 0 i).length = 60 + i) ∧
    ∀ i, i < 7 →
      (predict7Days M wrisk w0).1[i]? =
        some (buildForecastRow M wrisk (winFrom M wrisk w0 0 i) i) := by
  refine ⟨?_, fun i hi => ⟨?_, ?_⟩, fun i hi => ?_⟩
  · rw [predict7Days, predictLoop_eq]
    simp [PREDICTION_DAYS]
  · rw [winFrom_eq_append, rows_take M wrisk w0 i hi]
  · rw [winFrom_length, h60]
  · rw [predict7Days, predictLoop_eq, List.getElem?_map, List.getElem?_range
      (by simpa [PREDICTION_DAYS] using hi)]
    simp

/-- Witness for claim C6 on a concrete model set and a 60-value window. -/
theorem recursive_consistency_witness :
    (predict7Days cModels (fun _ => .low) cWindow).1.length = 7 ∧
    (∀ i, i ≤ 7 →
      winFrom cModels (fun _ => .low) cWindow 0 i =
        cWindow ++
          ((predict7Days cModels (fun _ => .low) cWindow).1.map
            ForecastRow.predicted).take i ∧
      (winFrom cModels (fun _ => .low) cWindow 0 i).length = 60 + i) ∧
    ∀ i, i < 7 →
      (predict7Days cModels (fun _ => .low) cWindow).1[i]? =
        some (buildForecastRow cModels (fun _ => .low)
          (winFrom cModels (fun _ => .low) cWindow 0 i) i) :=
  recursive_consistency cModels (fun _ => .low) cWindow (by simp [cWindow])

/-! ### Ledger merge idempotence (claim C9) -/

/-- Back-filling preserves the row's date. -/
theorem backfillRow_date (A : ℤ → Option ℚ) (r : LedgerRow) :
    (backfillRow A r).date = r.date := by
  rcases h : A r.date with _ | a <;> simp [backfillRow, h]

/-- Back-filling is idempotent. -/
theorem backfillRow_idem (A : ℤ → Option ℚ) (r : LedgerRow) :
    backfillRow A (backfillRow A r) = backfillRow A r := by
  rcases h : A r.date with _ | a
  · simp [backfillRow, h]
  · rcases hp : r.predicted with _ | p <;> simp [backfillRow, h, hp]

/-- `sortRows` on a cons is a stable insert. -/
theorem sortRows_cons (x : LedgerRow) (l : List LedgerRow) :
    sortRows (x :: l) = insertRow x (sortRows l) := rfl

/-- Membership in a stable insert. -/
theorem mem_insertRow (x z : LedgerRow) :
    ∀ s : List LedgerRow, z ∈ insertRow x s ↔ z = x ∨ z ∈ s
  | [] => by simp [insertRow]
  | y :: s => by
    simp only [insertRow]
    split_ifs with h
    · simp [List.mem_cons]
    · rw [List.mem_cons, mem_insertRow x z s, List.mem_cons]
      tauto

/-- Membership in the sorted list. -/
theorem mem_sortRows (z : LedgerRow) :
    ∀ l : List LedgerRow, z ∈ sortRows l ↔ z ∈ l
  | [] => Iff.rfl
  | x :: l => by
    rw [sortRows_cons, mem_insertRow x z (sortRows l), mem_sortRows z l,
      List.mem_cons]

/-- The stable insert keeps the list sorted by date. -/
theorem insertRow_pairwise (x : LedgerRow) :
    ∀ s : List LedgerRow,
      s.Pairwise (fun a b => a.date ≤ b.date) →
      (insertRow x s).Pairwise (fun a b => a.date ≤ b.date)
  | [], _ => by simp [insertRow]
  | y :: s, hs => by
    rw [List.pairwise_cons] at hs
    simp only [insertRow]
    split_ifs with h
    · rw [List.pairwise_cons]
      refine ⟨?_, List.pairwise_cons.mpr hs⟩
      intro z hz
      rcases List.mem_cons.mp hz with rfl | hz
      · exact h
      · exact le_trans h (hs.1 z hz)
    · rw [List.pairwise_cons]
      refine ⟨?_, insertRow_pairwise x s hs.2⟩
      intro z hz
      rcases (mem_insertRow x z s).mp hz with rfl | hz
      · omega
      · exact hs.1 z hz

/-- The insertion sort produces a date-sorted list. -/
theorem sortRows_pairwise :
    ∀ l : List LedgerRow,
      (sortRows l).Pairwise (fun a b => a.date ≤ b.date)
  | [] => by simp [sortRows]
  | x :: l => insertRow_pairwise x (sortRows l) (sortRows_pairwise l)

/-- A date-preserving map commutes with the stable insert. -/
theorem map_insertRow (f : LedgerRow → LedgerRow)
    (hf : ∀ r, (f r).date = r.date) (x : LedgerRow) :
    ∀ s, (insertRow x s).map f = insertRow (f x) (s.map f)
  | [] => rfl
  | y :: s => by
    simp only [insertRow, List.map_cons]
    by_cases h : x.date ≤ y.date
    · rw [if_pos h, if_pos (show (f x).date ≤ (f y).date by rw [hf, hf]; exact h)]
      simp
    · rw [if_neg h, if_neg (show ¬ (f x).date ≤ (f y).date by rw [hf, hf]; exact h)]
      simp [map_insertRow f hf x s]

/-- A date-preserving map commutes with the sort. -/
theorem map_sortRows (f : LedgerRow → LedgerRow)
    (hf : ∀ r, (f r).date = r.date) :
    ∀ l, (sortRows l).map f = sortRows (l.map f)
  | [] => rfl
  | x :: l => by
    rw [sortRows_cons, List.map_cons, sortRows_cons,
      map_insertRow f hf, map_sortRows f hf l]

/-- Two stable inserts with strictly ordered dates commute. -/
theorem insertRow_comm {x y : LedgerRow} (h : ¬ x.date ≤ y.date) :
    ∀ acc, insertRow y (insertRow x acc) = insertRow x (insertRow y acc)
  | [] => by
    have hyx : y.date ≤ x.date := by omega
    simp [insertRow, hyx, h]
  | z :: acc => by
    have hyx : y.date ≤ x.date := by omega
    by_cases hxz : x.date ≤ z.date
    · have hyz : y.date ≤ z.date := by omega
      simp [insertRow, hxz, hyz, h, hyx]
    · by_cases hyz : y.date ≤ z.date
      · simp [insertRow, hxz, hyz, h, hyx]
      · simp [insertRow, hxz, hyz, h, hyx, insertRow_comm h acc]

/-- Folding the insert over a pre-inserted list. -/
theorem foldr_insertRow_insertRow (x : LedgerRow) :
    ∀ (s acc : List LedgerRow),
      (insertRow x s).foldr insertRow acc = insertRow x (s.foldr insertRow acc)
  | [], _ => rfl
  | y :: s, acc => by
    simp only [insertRow]
    split_ifs with h
    · simp
    · simp only [List.foldr_cons, foldr_insertRow_insertRow x s acc]
      exact insertRow_comm h (s.foldr insertRow acc)

/-- Inserting a pre-sorted list element-wise is insensitive to the
pre-sort (stability of the insertion sort). -/
theorem foldr_insertRow_sortRows :
    ∀ l acc : List LedgerRow,
      (sortRows l).foldr insertRow acc = l.foldr insertRow acc
  | [], _ => rfl
  | x :: l, acc => by
    rw [sortRows_cons, foldr_insertRow_insertRow, List.foldr_cons,
      foldr_insertRow_sortRows l acc]

/-- The sort of an append folds the prefix into the sorted suffix. -/
theorem sortRows_append (X Y : List LedgerRow) :
    sortRows (X ++ Y) = X.foldr insertRow (sortRows Y) := by
  simp [sortRows, List.foldr_append]

/-- Pre-sorting the prefix does not change the sorted append. -/
theorem sortRows_sortRows_append (X Y : List LedgerRow) :
    sortRows (sortRows X ++ Y) = sortRows (X ++ Y) := by
  rw [sortRows_append, sortRows_append, foldr_insertRow_sortRows]

/-- Inserting below every element is a cons. -/
theorem insertRow_all_le (x : LedgerRow) :
    ∀ t : List LedgerRow, (∀ z ∈ t, x.date ≤ z.date) → insertRow x t = x :: t
  | [], _ => rfl
  | y :: t, h => by simp [insertRow, h y (List.mem_cons_self y t)]

/-- Filtering commutes with a stable insert into a sorted list. -/
theorem filter_insertRow (p : LedgerRow → Bool) (x : LedgerRow) :
    ∀ s, s.Pairwise (fun a b : LedgerRow => a.date ≤ b.date) →
      (insertRow x s).filter p =
        if p x then insertRow x (s.filter p) else s.filter p
  | [], _ => by
    cases hpx : p x <;> simp [insertRow, List.filter, hpx]
  | y :: s, hs => by
    rw [List.pairwise_cons] at hs
    by_cases hxy : x.date ≤ y.date
    · rw [show insertRow x (y :: s) = x :: y :: s by simp [insertRow, hxy]]
      cases hpx : p x
      · simp [List.filter_cons, hpx]
      · have hall : ∀ z ∈ (y :: s).filter p, x.date ≤ z.date := by
          intro z hz
          have hz' := List.mem_of_mem_filter hz
          rcases List.mem_cons.mp hz' with rfl | hzs
          · exact hxy
          · exact le_trans hxy (hs.1 z hzs)
        rw [List.filter_cons, hpx, if_pos rfl, if_pos rfl]
        exact (insertRow_all_le x _ hall).symm
    · rw [show insertRow x (y :: s) = y :: insertRow x s by simp [insertRow, hxy]]
      rw [List.filter_cons, filter_insertRow p x s hs.2]
      cases hpx : p x <;> cases hpy : p y <;>
        simp [hpx, hpy, List.filter_cons, insertRow, hxy]

/-- Filtering commutes with the insertion sort. -/
theorem filter_sortRows (p : LedgerRow → Bool) :
    ∀ l, (sortRows l).filter p = sortRows (l.filter p)
  | [] => rfl
  | x :: l => by
    rw [sortRows_cons, filter_insertRow p x (sortRows l) (sortRows_pairwise l),
      List.filter_cons]
    cases hpx : p x
    · simp [hpx, filter_sortRows p l]
    · simp [hpx, filter_sortRows p l, sortRows_cons]

/-- Stable inserts add one element. -/
theorem length_insertRow (x : LedgerRow) :
    ∀ s : List LedgerRow, (insertRow x s).length = s.length + 1
  | [] => rfl
  | y :: s => by
    simp only [insertRow]
    split_ifs <;> simp [length_insertRow x s]

/-- The sort preserves length. -/
theorem length_sortRows :
    ∀ l : List LedgerRow, (sortRows l).length = l.length
  | [] => rfl
  | x :: l => by
    rw [sortRows_cons, length_insertRow, length_sortRows l, List.length_cons]

/-- The sort of a list is empty only for the empty list. -/
theorem sortRows_eq_nil_iff (l : List LedgerRow) :
    sortRows l = [] ↔ l = [] := by
  constructor
  · intro h
    have hlen := length_sortRows l
    rw [h] at hlen
    exact List.length_eq_zero.mp hlen.symm
  · rintro rfl
    rfl

/-- A map that fixes every element of a list is the identity there. -/
theorem map_eq_self_of (f : LedgerRow → LedgerRow) (l : List LedgerRow)
    (h : ∀ x ∈ l, f x = x) : l.map f = l := by
  rw [show l.map f = l.map id from List.map_congr_left h, List.map_id]

/-- Claim C9: the output-ledger merge of `run` is idempotent — applying
it twice with the same forecast batch and the same realized-observation
table yields the same ledger as applying it once. -/
theorem merge_idempotent (L B : List LedgerRow) (A : ℤ → Option ℚ) :
    mergeLedger (mergeLedger L B A) B A = mergeLedger L B A := by
  classical
  have hbfdate : ∀ r, (backfillRow A r).date = r.date := backfillRow_date A
  have hbfidem : ∀ r, backfillRow A (backfillRow A r) = backfillRow A r :=
    backfillRow_idem A
  have hqB : ∀ r ∈ B.map (backfillRow A), notInBatch B r = false := by
    intro r hr
    rcases List.mem_map.mp hr with ⟨b, hb, rfl⟩
    have hmem : (backfillRow A b).date ∈ B.map LedgerRow.date := by
      rw [hbfdate]
      exact List.mem_map_of_mem _ hb
    simp [notInBatch, hmem]
  have hmapbfbf : ∀ X : List LedgerRow,
      (X.map (backfillRow A)).map (backfillRow A) = X.map (backfillRow A) := by
    intro X
    rw [List.map_map]
    exact List.map_congr_left fun b _ => hbfidem b
  have hmerge : ∀ E : List LedgerRow, E.isEmpty = false →
      mergeLedger E B A =
        sortRows (((E.map (backfillRow A)).filter (notInBatch B)).map
          (backfillRow A) ++ B.map (backfillRow A)) := by
    intro E hEmp
    simp only [mergeLedger, hEmp, Bool.false_eq_true, if_false, List.map_append]
  have hmergeNil : mergeLedger [] B A = sortRows (B.map (backfillRow A)) := by
    simp [mergeLedger]
  have hDimg : ∀ X : List LedgerRow,
      ((X.map (backfillRow A)).filter (notInBatch B)).map (backfillRow A) =
        (X.map (backfillRow A)).filter (notInBatch B) := by
    intro X
    apply map_eq_self_of
    intro x hx
    rcases List.mem_map.mp (List.mem_of_mem_filter hx) with ⟨y, _, rfl⟩
    exact hbfidem y
  by_cases hL : L = []
  · subst hL
    rw [hmergeNil]
    by_cases hB : B = []
    · subst hB
      simp [mergeLedger, sortRows]
    · have hMne : (sortRows (B.map (backfillRow A))).isEmpty = false := by
        cases hS : sortRows (B.map (backfillRow A)) with
        | nil =>
          rw [sortRows_eq_nil_iff, List.map_eq_nil_iff] at hS
          exact absurd hS hB
        | cons a t => rfl
      rw [hmerge _ hMne]
      have h1 : (sortRows (B.map (backfillRow A))).map (backfillRow A) =
          sortRows (B.map (backfillRow A)) := by
        rw [map_sortRows _ hbfdate, hmapbfbf]
      rw [h1]
      have h2 : (sortRows (B.map (backfillRow A))).filter (notInBatch B) = [] := by
        rw [filter_sortRows]
        rw [List.filter_eq_nil_iff.mpr fun r hr => by simp [hqB r hr]]
        rfl
      rw [h2]
      simp
  · have hLemp : L.isEmpty = false := by
      cases L with
      | nil => exact absurd rfl hL
      | cons a t => rfl
    rw [hmerge L hLemp, hDimg L]
    by_cases hM : sortRows ((L.map (backfillRow A)).filter (notInBatch B) ++
        B.map (backfillRow A)) = []
    · rw [hM]
      rw [sortRows_eq_nil_iff, List.append_eq_nil] at hM
      have hB : B = [] := List.map_eq_nil_iff.mp hM.2
      subst hB
      simp [mergeLedger, sortRows]
    · have hMemp : (sortRows ((L.map (backfillRow A)).filter (notInBatch B) ++
          B.map (backfillRow A))).isEmpty = false := by
        cases hS : sortRows ((L.map (backfillRow A)).filter (notInBatch B) ++
            B.map (backfillRow A)) with
        | nil => exact absurd hS hM
        | cons a t => rfl
      rw [hmerge _ hMemp]
      have hMimg : (sortRows ((L.map (backfillRow A)).filter (notInBatch B) ++
          B.map (backfillRow A))).map (backfillRow A) =
          sortRows ((L.map (backfillRow A)).filter (notInBatch B) ++
            B.map (backfillRow A)) := by
        rw [map_sortRows _ hbfdate]
        congr 1
        rw [List.map_append, hDimg L, hmapbfbf]
      rw [hMimg]
      have hfil : (sortRows ((L.map (backfillRow A)).filter (notInBatch B) ++
          B.map (backfillRow A))).filter (notInBatch B) =
          sortRows ((L.map (backfillRow A)).filter (notInBatch B)) := by
        rw [filter_sortRows, List.filter_append]
        have hfD : ((L.map (backfillRow A)).filter (notInBatch B)).filter
            (notInBatch B) = (L.map (backfillRow A)).filter (notInBatch B) :=
          List.filter_eq_self.mpr fun r hr => (List.mem_filter.mp hr).2
        have hfB : (B.map (backfillRow A)).filter (notInBatch B) = [] :=
          List.filter_eq_nil_iff.mpr fun r hr => by simp [hqB r hr]
        rw [hfD, hfB, List.append_nil]
      rw [hfil]
      have hSDimg : (sortRows ((L.map (backfillRow A)).filter
          (notInBatch B))).map (backfillRow A) =
          sortRows ((L.map (backfillRow A)).filter (notInBatch B)) := by
        rw [map_sortRows _ hbfdate, hDimg L]
      rw [hSDimg]
      exact sortRows_sortRows_append _ _

/-! ### Batch vs. single-day feature paths (claim C10) -/

/-- The trailing window has the requested length. -/
theorem trailWin_length (tgt : ℕ → ℚ) (d len : ℕ) :
    (trailWin tgt d len).length = len := by
  simp [trailWin]

/-- Indexing into the trailing window. -/
theorem trailWin_getD (tgt : ℕ → ℚ) (d len j : ℕ) (hj : j < len) :
    (trailWin tgt d len).getD j 0 = tgt (d - len + j) := by
  unfold trailWin
  rw [List.getD_eq_getElem?_getD, List.getElem?_map, List.getElem?_range hj]
  rfl

/-- Negative indexing into the trailing 60-day window reads the target
`k` days back. -/
theorem wget_trailWin (tgt : ℕ → ℚ) (d k : ℕ) (hk1 : 1 ≤ k) (hk : k ≤ 60)
    (hd : 60 ≤ d) : wget (trailWin tgt d 60) k = tgt (d - k) := by
  unfold wget
  rw [trailWin_length, trailWin_getD tgt d 60 (60 - k) (by omega)]
  congr 1
  omega

/-- The trailing `k` elements of a trailing window form the shorter
trailing window. -/
theorem lastN_trailWin (tgt : ℕ → ℚ) (d len k : ℕ) (hk : k ≤ len)
    (hd : len ≤ d) : lastN (trailWin tgt d len) k = trailWin tgt d k := by
  unfold lastN
  rw [trailWin_length]
  apply List.ext_getElem
  · rw [List.length_drop, trailWin_length, trailWin_length]
    omega
  · intro i h1 h2
    rw [List.getElem_drop]
    unfold trailWin
    rw [List.getElem_map, List.getElem_map, List.getElem_range,
      List.getElem_range]
    congr 1
    omega

/-- Claim C10: the batch feature path of `prepare_features` and the
single-day builder `_build_single_day_features` are not extensionally
equal on the same actual history.  For target day `d` (window = trailing
60 observations ending at `d - 1`): the batch path computes
`diff_1 = tgt (d-1) - tgt (d-2)` while the single-day builder computes
`window[-2] - window[-3] = tgt (d-2) - tgt (d-3)` (one day staler), and
similarly for `diff_7` / `pct_change_1d` / `pct_change_7d`; on the
quadratic series all four differ, and the two `std_3` values differ
because the batch path uses the sample standard deviation (pandas
`.std()`, `ddof=1`) while the single-day builder uses the population
standard deviation (`np.std`, `ddof=0`). -/
theorem batch_vs_single_day_divergence (tgt : ℕ → ℚ) (d : ℕ)
    (hd : 60 ≤ d) :
    diff1 tgt d = tgt (d - 1) - tgt (d - 2) ∧
    sdDiff1 (trailWin tgt d 60) = tgt (d - 2) - tgt (d - 3) ∧
    diff7 tgt d = tgt (d - 1) - tgt (d - 8) ∧
    sdDiff7 (trailWin tgt d 60) = tgt (d - 2) - tgt (d - 9) ∧
    sdDiff1 (trailWin sqSeries 60 60) ≠ diff1 sqSeries 60 ∧
    sdDiff7 (trailWin sqSeries 60 60) ≠ diff7 sqSeries 60 ∧
    sdPctChange1 (trailWin sqSeries 60 60) ≠ pctChange1 sqSeries 60 ∧
    sdPctChange7 (trailWin sqSeries 60 60) ≠ pctChange7 sqSeries 60 ∧
    popVarQ (lastN (trailWin sqSeries 60 60) 3) ≠
      sampleVarQ (rollWin sqSeries 60 3) ∧
    sdStd3 (trailWin sqSeries 60 60) ≠ sampleStd (rollWin sqSeries 60 3) := by
  have hdiff1 : ∀ (f : ℕ → ℚ) (e : ℕ), 2 ≤ e →
      diff1 f e = f (e - 1) - f (e - 2) := by
    intro f e he
    unfold diff1
    rw [if_pos he]
  have hdiff7 : ∀ (f : ℕ → ℚ) (e : ℕ), 8 ≤ e →
      diff7 f e = f (e - 1) - f (e - 8) := by
    intro f e he
    unfold diff7
    rw [if_pos he]
  have hsd1 : ∀ (f : ℕ → ℚ) (e : ℕ), 60 ≤ e →
      sdDiff1 (trailWin f e 60) = f (e - 2) - f (e - 3) := by
    intro f e he
    unfold sdDiff1
    rw [if_pos (by rw [trailWin_length]; omega),
      wget_trailWin f e 2 (by omega) (by omega) he,
      wget_trailWin f e 3 (by omega) (by omega) he]
  have hsd7 : ∀ (f : ℕ → ℚ) (e : ℕ), 60 ≤ e →
      sdDiff7 (trailWin f e 60) = f (e - 2) - f (e - 9) := by
    intro f e he
    unfold sdDiff7
    rw [if_pos (by rw [trailWin_length]; omega),
      wget_trailWin f e 2 (by omega) (by omega) he,
      wget_trailWin f e 9 (by omega) (by omega) he]
  have hpct1 : ∀ (f : ℕ → ℚ) (e : ℕ), 2 ≤ e →
      pctChange1 f e = clip2 ((f (e - 1) - f (e - 2)) / (f (e - 2) + 1)) := by
    intro f e he
    unfold pctChange1
    rw [if_pos he]
  have hpct7 : ∀ (f : ℕ → ℚ) (e : ℕ), 8 ≤ e →
      pctChange7 f e = clip2 ((f (e - 1) - f (e - 8)) / (f (e - 8) + 1)) := by
    intro f e he
    unfold pctChange7
    rw [if_pos he]
  have hsdp1 : ∀ (f : ℕ → ℚ) (e : ℕ), 60 ≤ e →
      sdPctChange1 (trailWin f e 60) =
        clip2 ((f (e - 2) - f (e - 3)) / (f (e - 3) + 1)) := by
    intro f e he
    unfold sdPctChange1
    rw [if_pos (by rw [trailWin_length]; omega),
      wget_trailWin f e 2 (by omega) (by omega) he,
      wget_trailWin f e 3 (by omega) (by omega) he]
  have hsdp7 : ∀ (f : ℕ → ℚ) (e : ℕ), 60 ≤ e →
      sdPctChange7 (trailWin f e 60) =
        clip2 ((f (e - 2) - f (e - 9)) / (f (e - 9) + 1)) := by
    intro f e he
    unfold sdPctChange7
    rw [if_pos (by rw [trailWin_length]; omega),
      wget_trailWin f e 2 (by omega) (by omega) he,
      wget_trailWin f e 9 (by omega) (by omega) he]
  have hlist1 : trailWin sqSeries 60 3 = [3249, 3364, 3481] := by
    show (List.range 3).map (fun j => sqSeries (60 - 3 + j)) = _
    rw [show List.range 3 = [0, 1, 2] by rfl]
    norm_num [sqSeries]
  have hlist2 : rollWin sqSeries 60 3 = [3249, 3364, 3481] := by
    show (List.range (min 3 60)).map (fun j => sqSeries (60 - min 3 60 + j)) = _
    rw [show List.range (min 3 60) = [0, 1, 2] by rfl]
    norm_num [sqSeries]
  have hvar : popVarQ (lastN (trailWin sqSeries 60 60) 3) ≠
      sampleVarQ (rollWin sqSeries 60 3) := by
    rw [lastN_trailWin sqSeries 60 60 3 (by omega) (by omega), hlist1, hlist2]
    norm_num [popVarQ, sampleVarQ, meanQ]
  refine ⟨hdiff1 tgt d (by omega), hsd1 tgt d hd, hdiff7 tgt d (by omega),
    hsd7 tgt d hd, ?_, ?_, ?_, ?_, hvar, ?_⟩
  · rw [hsd1 sqSeries 60 (by norm_num), hdiff1 sqSeries 60 (by norm_num)]
    norm_num [sqSeries]
  · rw [hsd7 sqSeries 60 (by norm_num), hdiff7 sqSeries 60 (by norm_num)]
    norm_num [sqSeries]
  · rw [hsdp1 sqSeries 60 (by norm_num), hpct1 sqSeries 60 (by norm_num)]
    norm_num [sqSeries, clip2, min_def, max_def]
  · rw [hsdp7 sqSeries 60 (by norm_num), hpct7 sqSeries 60 (by norm_num)]
    norm_num [sqSeries, clip2, min_def, max_def]
  · intro heq
    apply hvar
    have ha : (0 : ℚ) ≤ popVarQ (lastN (trailWin sqSeries 60 60) 3) := by
      rw [lastN_trailWin sqSeries 60 60 3 (by omega) (by omega), hlist1]
      norm_num [popVarQ, sampleVarQ, meanQ]
    have hb : (0 : ℚ) ≤ sampleVarQ (rollWin sqSeries 60 3) := by
      rw [hlist2]
      norm_num [popVarQ, sampleVarQ, meanQ]
    have h1 := Real.sq_sqrt
      (show (0 : ℝ) ≤ ((popVarQ (lastN (trailWin sqSeries 60 60) 3) : ℚ) : ℝ)
        by exact_mod_cast ha)
    have h2 := Real.sq_sqrt
      (show (0 : ℝ) ≤ ((sampleVarQ (rollWin sqSeries 60 3) : ℚ) : ℝ)
        by exact_mod_cast hb)
    unfold sdStd3 popStd sampleStd at heq
    have hcast : ((popVarQ (lastN (trailWin sqSeries 60 60) 3) : ℚ) : ℝ) =
        ((sampleVarQ (rollWin sqSeries 60 3) : ℚ) : ℝ) := by
      rw [← h1, heq, h2]
    exact_mod_cast hcast

/-- Witness for claim C10 at the quadratic series and `d = 60`. -/
theorem batch_vs_single_day_divergence_witness :
    diff1 sqSeries 60 = sqSeries 59 - sqSeries 58 ∧
    sdDiff1 (trailWin sqSeries 60 60) = sqSeries 58 - sqSeries 57 ∧
    diff7 sqSeries 60 = sqSeries 59 - sqSeries 52 ∧
    sdDiff7 (trailWin sqSeries 60 60) = sqSeries 58 - sqSeries 51 ∧
    sdDiff1 (trailWin sqSeries 60 60) ≠ diff1 sqSeries 60 ∧
    sdDiff7 (trailWin sqSeries 60 60) ≠ diff7 sqSeries 60 ∧
    sdPctChange1 (trailWin sqSeries 60 60) ≠ pctChange1 sqSeries 60 ∧
    sdPctChange7 (trailWin sqSeries 60 60) ≠ pctChange7 sqSeries 60 ∧
    popVarQ (lastN (trailWin sqSeries 60 60) 3) ≠
      sampleVarQ (rollWin sqSeries 60 3) ∧
    sdStd3 (trailWin sqSeries 60 60) ≠ sampleStd (rollWin sqSeries 60 3) :=
  batch_vs_single_day_divergence sqSeries 60 (by norm_num)

end PLA
